import Mathlib

/-!
Shallow embedding of the cache-aside recommendation and rating layer of
`redis_movie_integration_complete.py` (Neo4j primary store + Redis cache),
together with proofs of the specification claims about it.

Modelling conventions:
* Ratings and predicted scores are modelled as rationals (`ℚ`); the Python
  code stores them as floats / Redis strings and round-trips them through
  `float(...)`, which we abstract as the identity on the stored value.
* Redis serialisation (JSON encode/decode of recommendation lists and of the
  rating list) is modelled by storing the structured value directly, with an
  explicit `malformed` constructor for the payload of the recommendation
  cache so that the `json.JSONDecodeError` branch of
  `get_recommendations_for_user` is representable.
* Time is an explicit natural-number clock `now`.  A key with expiry
  `some e` is visible exactly while `now < e`; `none` means no expiry
  (`PERSIST`-like state, which is what a bare `HSET` on an absent key
  produces).  Redis's lazy deletion of expired keys is modelled eagerly:
  every read goes through a liveness check.
* Neo4j-side movie ids are natural numbers (`m.movieId`); on the Redis side
  they travel as strings (`str(movie_id)` in the Python code), hence the
  explicit `toString` conversions at the boundaries.
-/

namespace MovieRec

/-! ### Association lists

Redis hashes and Python dicts are modelled as association lists with
first-match lookup and in-place update (`aset` replaces the first binding of
the key or appends a fresh one, so key lists stay duplicate-free when built
only through `aset`). -/

variable {α : Type} {β : Type}

/-- First-match lookup in an association list. -/
def alookup [DecidableEq α] : List (α × β) → α → Option β
  | [], _ => none
  | (k', v) :: t, k => if k' = k then some v else alookup t k

/-- Update the first binding of `k` (or append one): Python `d[k] = v`,
Redis `HSET key k v` on the field level. -/
def aset [DecidableEq α] : List (α × β) → α → β → List (α × β)
  | [], k, v => [(k, v)]
  | (k', v') :: t, k, v => if k' = k then (k, v) :: t else (k', v') :: aset t k v

/-- Remove every binding of `k`: Redis `DEL`. -/
def adel [DecidableEq α] (l : List (α × β)) (k : α) : List (α × β) :=
  l.filter (fun p => p.1 ≠ k)

/-- Apply `aset` for each pair in `ps`, left to right: Redis
`HSET key mapping={...}` merging a whole mapping into an existing hash. -/
def asetAll [DecidableEq α] (l ps : List (α × β)) : List (α × β) :=
  ps.foldl (fun f p => aset f p.1 p.2) l

theorem alookup_aset_self [DecidableEq α] (l : List (α × β)) (k : α) (v : β) :
    alookup (aset l k v) k = some v := by
  induction l with
  | nil => simp [aset, alookup]
  | cons p t ih =>
      obtain ⟨k1, v1⟩ := p
      by_cases h : k1 = k
      · simp [aset, h, alookup]
      · simp [aset, h, alookup, ih]

theorem alookup_aset_ne [DecidableEq α] (l : List (α × β)) (k k' : α) (v : β)
    (h : k' ≠ k) : alookup (aset l k v) k' = alookup l k' := by
  have h' : k ≠ k' := Ne.symm h
  induction l with
  | nil => simp [aset, alookup, h']
  | cons p t ih =>
      obtain ⟨k1, v1⟩ := p
      by_cases h1 : k1 = k
      · simp [aset, h1, alookup, h']
      · simp [aset, h1, alookup, ih]

theorem alookup_adel_self [DecidableEq α] (l : List (α × β)) (k : α) :
    alookup (adel l k) k = none := by
  induction l with
  | nil => simp [adel, alookup]
  | cons p t ih =>
      obtain ⟨k1, v1⟩ := p
      by_cases h : k1 = k
      · simpa [adel, List.filter_cons, h] using ih
      · simpa [adel, List.filter_cons, alookup, h] using ih

theorem alookup_asetAll_not_mem [DecidableEq α] (ps : List (α × β)) (l : List (α × β))
    (k : α) (h : k ∉ ps.map Prod.fst) : alookup (asetAll l ps) k = alookup l k := by
  induction ps generalizing l with
  | nil => simp [asetAll]
  | cons p t ih =>
      obtain ⟨k1, v1⟩ := p
      simp only [List.map_cons, List.mem_cons, not_or] at h
      have h2 := ih (aset l k1 v1) h.2
      rw [show asetAll l ((k1, v1) :: t) = asetAll (aset l k1 v1) t from rfl, h2,
        alookup_aset_ne l k1 k v1 h.1]

theorem alookup_asetAll_of_alookup [DecidableEq α] (ps : List (α × β)) (l : List (α × β))
    (k : α) (v : β) (hnd : (ps.map Prod.fst).Nodup) (h : alookup ps k = some v) :
    alookup (asetAll l ps) k = some v := by
  induction ps generalizing l with
  | nil => simp [alookup] at h
  | cons p t ih =>
      obtain ⟨k1, v1⟩ := p
      simp only [List.map_cons, List.nodup_cons] at hnd
      by_cases hk : k1 = k
      · subst hk
        simp [alookup] at h
        have h1 : alookup (asetAll (aset l k1 v1) t) k1
            = alookup (aset l k1 v1) k1 := alookup_asetAll_not_mem t _ k1 hnd.1
        rw [show asetAll l ((k1, v1) :: t) = asetAll (aset l k1 v1) t from rfl, h1,
          alookup_aset_self]
        exact congrArg some h
      · simp only [alookup, if_neg hk] at h
        exact ih (aset l k1 v1) hnd.2 h

theorem mem_keys_aset [DecidableEq α] (l : List (α × β)) (k : α) (v : β) (x : α) :
    x ∈ (aset l k v).map Prod.fst ↔ (x ∈ l.map Prod.fst ∨ x = k) := by
  induction l with
  | nil => simp [aset]
  | cons p t ih =>
      obtain ⟨k1, v1⟩ := p
      by_cases h : k1 = k
      · subst h
        simp [aset]
        tauto
      · simp [aset, h, ih]
        tauto

theorem nodup_keys_aset [DecidableEq α] (l : List (α × β)) (k : α) (v : β)
    (h : (l.map Prod.fst).Nodup) : ((aset l k v).map Prod.fst).Nodup := by
  induction l with
  | nil => simp [aset]
  | cons p t ih =>
      obtain ⟨k1, v1⟩ := p
      simp only [List.map_cons, List.nodup_cons] at h
      by_cases hk : k1 = k
      · subst hk
        simp [aset, h.1, h.2]
      · simp only [aset, if_neg hk, List.map_cons, List.nodup_cons]
        refine ⟨fun hm => ?_, ih h.2⟩
        rcases (mem_keys_aset t k v k1).mp hm with hm | hm
        · exact h.1 hm
        · exact hk hm

theorem nodup_keys_asetAll [DecidableEq α] (ps : List (α × β)) (l : List (α × β))
    (h : (l.map Prod.fst).Nodup) : ((asetAll l ps).map Prod.fst).Nodup := by
  induction ps generalizing l with
  | nil => exact h
  | cons p t ih => exact ih (aset l p.1 p.2) (nodup_keys_aset l p.1 p.2 h)

theorem mem_keys_asetAll [DecidableEq α] (ps : List (α × β)) (l : List (α × β)) (x : α)
    (h : x ∈ (asetAll l ps).map Prod.fst) :
    x ∈ l.map Prod.fst ∨ x ∈ ps.map Prod.fst := by
  induction ps generalizing l with
  | nil => exact Or.inl h
  | cons p t ih =>
      rcases ih (aset l p.1 p.2) h with hm | hm
      · rcases (mem_keys_aset l p.1 p.2 x).mp hm with hm | hm
        · exact Or.inl hm
        · exact Or.inr (by simp [hm])
      · exact Or.inr (by simp [hm])

theorem alookup_of_mem_nodup [DecidableEq α] (ps : List (α × β)) (k : α) (v : β)
    (hnd : (ps.map Prod.fst).Nodup) (h : (k, v) ∈ ps) : alookup ps k = some v := by
  induction ps with
  | nil => simp at h
  | cons p t ih =>
      obtain ⟨k1, v1⟩ := p
      simp only [List.map_cons, List.nodup_cons] at hnd
      rcases List.mem_cons.mp h with h | h
      · have hk : k = k1 := congrArg Prod.fst h
        have hv : v = v1 := congrArg Prod.snd h
        subst hk
        subst hv
        simp [alookup]
      · have hk : k1 ≠ k := by
          intro hh
          exact hnd.1 (hh ▸ (List.mem_map.mpr ⟨(k, v), h, rfl⟩))
        simp only [alookup, if_neg hk]
        exact ih hnd.2 h

/-! ### Data model

The two stores of the program: Neo4j (authoritative) and Redis (cache +
search projection), plus the row/record shapes that travel between them. -/

/-- One row of `get_user_rated_movies`: `{"movie_id": str(...), "title": ...,
"rating": float(...)}`. -/
structure RatedMovie where
  movie_id : String
  title : String
  rating : ℚ
  deriving DecidableEq, Repr

/-- One recommendation row: `{"movie_id": <int>, "predicted_rating": <float>}`;
`display_top_5_recommendations` later adds a `"title"` key, modelled as the
optional `title` field (absent, `none`, in what the CF query returns). -/
structure Rec where
  movie_id : Nat
  predicted_rating : ℚ
  title : Option String
  deriving DecidableEq, Repr

instance : Inhabited Rec := ⟨⟨0, 0, none⟩⟩

/-- Payload of a recommendation cache entry: the JSON string either parses
back to the stored list (`good`) or fails to parse (`malformed`, the
`json.JSONDecodeError` branch). -/
inductive RecPayload where
  | good : List Rec → RecPayload
  | malformed : RecPayload
  deriving DecidableEq, Repr

/-- Fields of a `movie:<movieId>` Redis hash.  Every field is optional
because `rate_movie` step 3 can create the hash with only `avg_rating` set
(HSET on an absent key). -/
structure MovieRecord where
  title : Option String
  genres : Option String
  year : Option Int
  avg_rating : Option ℚ
  deriving DecidableEq, Repr

/-- The Redis keyspace used by the program.  Keys are namespaced by shape
(`recs:user:<u>:k:<k>`, `user:<u>:ratings`, `user:<u>:ratings:list`,
`movie:<id>`), so each namespace is one table here.  Each entry carries its
expiry clock value (`none` = no expiry). -/
structure RedisState where
  recCache : List ((Nat × Nat) × (RecPayload × Nat))
  userHash : List (Nat × (List (String × ℚ) × Option Nat))
  userList : List (Nat × (List RatedMovie × Nat))
  movieHash : List (String × MovieRecord)
  deriving DecidableEq, Repr

/-- The authoritative Neo4j graph: `(:User {userId})`,
`(:Movie {movieId, title})`, and `[:RATED {rating}]` edges, at most one per
`(user, movie)` pair. -/
structure Neo4jState where
  users : List Nat
  movies : List (Nat × String)
  ratings : List ((Nat × Nat) × ℚ)
  deriving DecidableEq, Repr

/-- Is a key with expiry `exp` visible at clock `now`?  Redis deletes a key
with TTL once the TTL has elapsed; `none` means no expiry was ever set. -/
def liveOpt (now : Nat) (exp : Option Nat) : Bool :=
  match exp with
  | none => true
  | some e => now < e

/-- Read the `user:<u>:ratings` hash entry (fields and expiry), respecting
expiry: an expired entry reads as absent. -/
def getUserHash (rs : RedisState) (now : Nat) (u : Nat) :
    Option (List (String × ℚ) × Option Nat) :=
  match alookup rs.userHash u with
  | some (flds, exp) => if liveOpt now exp then some (flds, exp) else none
  | none => none

/-- `HSET user:<u>:ratings field value` for a single field: merges into a
live hash (keeping its TTL), or creates a fresh hash with no expiry. -/
def hsetUserField (rs : RedisState) (now : Nat) (u : Nat) (k : String) (v : ℚ) :
    RedisState :=
  match getUserHash rs now u with
  | some (flds, exp) => { rs with userHash := aset rs.userHash u (aset flds k v, exp) }
  | none => { rs with userHash := aset rs.userHash u ([(k, v)], none) }

/-- `HSET user:<u>:ratings mapping={...}`: merge a whole mapping into the
hash (field-by-field, left to right), TTL untouched. -/
def hsetUserMapping (rs : RedisState) (now : Nat) (u : Nat)
    (m : List (String × ℚ)) : RedisState :=
  match getUserHash rs now u with
  | some (flds, exp) => { rs with userHash := aset rs.userHash u (asetAll flds m, exp) }
  | none => { rs with userHash := aset rs.userHash u (asetAll [] m, none) }

/-- `EXPIRE user:<u>:ratings ttl`: set the expiry of a live key; a no-op on
an absent (or already expired) key. -/
def expireUserHash (rs : RedisState) (now : Nat) (u : Nat) (ttl : Nat) : RedisState :=
  match getUserHash rs now u with
  | some (flds, _) => { rs with userHash := aset rs.userHash u (flds, some (now + ttl)) }
  | none => rs

/-- `DEL user:<u>:ratings`. -/
def delUserHash (rs : RedisState) (u : Nat) : RedisState :=
  { rs with userHash := adel rs.userHash u }

/-- `SET user:<u>:ratings:list <json> EX ttl`. -/
def setUserList (rs : RedisState) (now : Nat) (u : Nat) (lst : List RatedMovie)
    (ttl : Nat) : RedisState :=
  { rs with userList := aset rs.userList u (lst, now + ttl) }

/-- `GET recs:user:<u>:k:<k>`, respecting expiry. -/
def getRecCache (rs : RedisState) (now : Nat) (u k : Nat) : Option RecPayload :=
  match alookup rs.recCache (u, k) with
  | some (payload, exp) => if now < exp then some payload else none
  | none => none

/-- `SETEX recs:user:<u>:k:<k> ttl <json>`. -/
def setexRecCache (rs : RedisState) (now : Nat) (u k : Nat) (payload : RecPayload)
    (ttl : Nat) : RedisState :=
  { rs with recCache := aset rs.recCache (u, k) (payload, now + ttl) }

/-- `HGET movie:<id> title` (movie hashes are written without a TTL). -/
def getMovieTitle (rs : RedisState) (sid : String) : Option String :=
  match alookup rs.movieHash sid with
  | some mrec => mrec.title
  | none => none

/-- `HSET movie:<id> avg_rating <a>`: field-level update of the search
projection's entity record; creates the hash (with only that field) if it
does not exist. -/
def setMovieAvg (rs : RedisState) (sid : String) (a : ℚ) : RedisState :=
  match alookup rs.movieHash sid with
  | some mrec => { rs with movieHash := aset rs.movieHash sid { mrec with avg_rating := some a } }
  | none => { rs with movieHash := aset rs.movieHash sid ⟨none, none, none, some a⟩ }

/-! ### Sorting

A structural insertion sort standing in for the store engine's `ORDER BY`
(whose tie order among equal sort keys the engine leaves unspecified; we fix
a deterministic tiebreak). -/

/-- Insert `x` before the first element `y` with `le x y`. -/
def insertSorted (le : α → α → Bool) (x : α) : List α → List α
  | [] => [x]
  | y :: t => if le x y then x :: y :: t else y :: insertSorted le x t

/-- Insertion sort by the boolean comparator `le`. -/
def sortBy (le : α → α → Bool) : List α → List α
  | [] => []
  | x :: t => insertSorted le x (sortBy le t)

/-! ### Authoritative-store queries (`query_top_k_recommendations_from_neo4j`,
`get_user_rated_movies`, and the write-path queries of `rate_movie`) -/

/-- Movies the user has rated: the `(u)-[:RATED]->(m)` pattern. -/
def ratedMovieIds (db : Neo4jState) (u : Nat) : List Nat :=
  db.ratings.filterMap (fun p => if p.1.1 = u then some p.1.2 else none)

/-- The collaborative-filter query of
`query_top_k_recommendations_from_neo4j`: users co-rating at least one movie
with `u`, the 50 most-overlapping kept as neighbours, candidate movies they
rated that `u` has not, scored by the mean neighbour rating, top `k` by
descending score. -/
def query_top_k_recommendations_from_neo4j (db : Neo4jState) (user_id : Nat)
    (k : Nat) : List Rec :=
  let myMovies := ratedMovieIds db user_id
  let others := (db.ratings.filterMap
      (fun p => if p.1.1 ≠ user_id ∧ p.1.2 ∈ myMovies then some p.1.1 else none)).dedup
  let counted := others.map (fun o =>
      (o, (db.ratings.filter (fun p => p.1.1 = o ∧ p.1.2 ∈ myMovies)).length))
  let neighbors := ((sortBy
      (fun a b => b.2 < a.2 ∨ (a.2 = b.2 ∧ a.1 ≤ b.1)) counted).take 50).map Prod.fst
  let candidateEdges := db.ratings.filter
      (fun p => p.1.1 ∈ neighbors ∧ p.1.2 ∉ myMovies)
  let candidates := (candidateEdges.map (fun p => p.1.2)).dedup
  let scored := candidates.map (fun m =>
      let rats := candidateEdges.filterMap (fun p => if p.1.2 = m then some p.2 else none)
      Rec.mk m (rats.sum / rats.length) none)
  (sortBy (fun a b => b.predicted_rating < a.predicted_rating
      ∨ (a.predicted_rating = b.predicted_rating ∧ a.movie_id ≤ b.movie_id)) scored).take k

/-- `get_user_rated_movies`: the user's rated movies with titles, ordered by
rating descending then title ascending; `movie_id` is stringified
(`str(record["movie_id"])`). -/
def get_user_rated_movies (db : Neo4jState) (user_id : Nat) : List RatedMovie :=
  let rows := db.ratings.filterMap (fun p =>
    if p.1.1 = user_id then
      match alookup db.movies p.1.2 with
      | some t => some (RatedMovie.mk (toString p.1.2) t p.2)
      | none => none
    else none)
  sortBy (fun a b => b.rating < a.rating ∨ (a.rating = b.rating ∧ ¬ b.title < a.title)) rows

/-- Step 1 of `rate_movie`: `MATCH (u),(m) MERGE (u)-[r:RATED]->(m) SET
r.rating = $rating` — creates or overwrites the one edge per pair, and
writes nothing when either endpoint is missing (the `MATCH` finds no row). -/
def upsertRating (db : Neo4jState) (u m : Nat) (rating : ℚ) : Neo4jState :=
  if u ∈ db.users ∧ (alookup db.movies m).isSome then
    { db with ratings := aset db.ratings (u, m) rating }
  else db

/-- Step 2 of `rate_movie`: `MATCH (:User)-[r:RATED]->(m {movieId: $id})
RETURN avg(r.rating)` — `avg` over zero rows is null (`none`). -/
def computeAvgRating (db : Neo4jState) (m : Nat) : Option ℚ :=
  let rats := db.ratings.filterMap (fun p => if p.1.2 = m then some p.2 else none)
  if rats.isEmpty then none else some (rats.sum / rats.length)

/-! ### Rating-set cache (`cache_user_rated_movies`, `get_cached_user_ratings`) -/

/-- `cache_user_rated_movies`: build the `movie_id -> rating` dict
(last-wins on duplicate keys, like a Python dict comprehension) and `HSET` +
`EXPIRE` it when the list is non-empty, `DEL` the hash when it is empty;
either way store the JSON list under `user:<u>:ratings:list` with the same
TTL. -/
def ratingsMapping (rated_movies : List RatedMovie) : List (String × ℚ) :=
  asetAll [] (rated_movies.map (fun m => (m.movie_id, m.rating)))

def cache_user_rated_movies (rs : RedisState) (now : Nat) (u : Nat)
    (rated_movies : List RatedMovie) (ttl_seconds : Nat) : RedisState :=
  let rs1 :=
    if rated_movies.isEmpty then delUserHash rs u
    else expireUserHash (hsetUserMapping rs now u (ratingsMapping rated_movies))
        now u ttl_seconds
  setUserList rs1 now u rated_movies ttl_seconds

/-- `get_cached_user_ratings`: `HGETALL user:<u>:ratings`, an empty dict
when there is no (live) cache entry. -/
def get_cached_user_ratings (rs : RedisState) (now : Nat) (u : Nat) :
    List (String × ℚ) :=
  match getUserHash rs now u with
  | some (flds, _) => flds
  | none => []

/-! ### Recommendation cache (`get_recommendations_for_user`) -/

/-- Result of one `get_recommendations_for_user` call, instrumented with the
number of authoritative-store queries and cache writes it performed. -/
structure FetchResult where
  recs : List Rec
  rs : RedisState
  neo4jQueries : Nat
  cacheWrites : Nat
  deriving Repr

/-- `get_recommendations_for_user`: cache-aside read of
`recs:user:<u>:k:<k>`; a malformed cached payload is treated as a miss; a
miss runs the CF query once and `SETEX`es the result verbatim. -/
def get_recommendations_for_user (db : Neo4jState) (rs : RedisState) (now : Nat)
    (user_id : Nat) (k : Nat) (ttl_seconds : Nat) : FetchResult :=
  match getRecCache rs now user_id k with
  | some (RecPayload.good l) => ⟨l, rs, 0, 0⟩
  | some RecPayload.malformed =>
      let recs := query_top_k_recommendations_from_neo4j db user_id k
      ⟨recs, setexRecCache rs now user_id k (RecPayload.good recs) ttl_seconds, 1, 1⟩
  | none =>
      let recs := query_top_k_recommendations_from_neo4j db user_id k
      ⟨recs, setexRecCache rs now user_id k (RecPayload.good recs) ttl_seconds, 1, 1⟩

/-! ### Search projection query shaping
(`redis_fulltext_search_demo`, `search_movies_with_user_context`) -/

/-- A document returned by the full-text engine (an external collaborator):
the Redis key in `id` plus the indexed fields that happen to be present. -/
structure SearchDoc where
  id : String
  title : Option String
  genres : Option String
  avg_rating : Option ℚ
  deriving DecidableEq, Repr

/-- One displayed row of `search_movies_with_user_context`. -/
structure AnnotatedResult where
  movie_id : String
  title : String
  genres : String
  avg_rating : Option ℚ
  seen : Bool
  user_rating : Option ℚ
  deriving DecidableEq, Repr

/-- The query string of the Part 3 demo (`redis_fulltext_search_demo`): the
user's term, run exactly as typed. -/
def demoQueryString (term : String) : String := term

/-- The demo's `max_results` shaping: default 10 on empty/unparseable input,
then clamped to `[1, 10]`. -/
def demoMaxResults (raw : Option Int) : Nat :=
  match raw with
  | none => 10
  | some n => if n < 1 then 1 else if n > 10 then 10 else n.toNat

/-- The query string built by `search_movies_with_user_context`: the term is
scoped to the `title` field, parenthesised when it contains a space, and
otherwise left as typed. -/
def buildTitleQuery (search_term : String) : String :=
  if search_term.data.contains ' ' then "@title:(" ++ search_term ++ ")"
  else "@title:" ++ search_term

/-- Page size of the user-context search: `Query(...).paging(0, 10)`. -/
def searchPageSize : Nat := 10

/-- `doc.id` is a Redis key like `movie:<movieId>`; strip the namespace
(`redis_id.split("movie:", 1)[1]` after the `startswith` check). -/
def extractMovieId (redisId : String) : String :=
  if "movie:".data.isPrefixOf redisId.data then String.mk (redisId.data.drop 6)
  else redisId

/-- The per-result user-context join of `search_movies_with_user_context`:
`has_seen = movie_id in user_ratings` and the user's rating when seen —
computed from the `user_ratings` dict the function is handed, for every
document of the engine's result page. -/
def annotateSearchDocs (user_ratings : List (String × ℚ)) (docs : List SearchDoc) :
    List AnnotatedResult :=
  docs.map (fun doc =>
    let movie_id := extractMovieId doc.id
    let has_seen := (alookup user_ratings movie_id).isSome
    { movie_id := movie_id
      title := doc.title.getD "(no title)"
      genres := doc.genres.getD "(no genres)"
      avg_rating := doc.avg_rating
      seen := has_seen
      user_rating := if has_seen then alookup user_ratings movie_id else none })

/-! ### Top-5 display and the write path (`display_top_5_recommendations`,
`rate_movie`) -/

/-- Result of `display_top_5_recommendations`: the (title-enriched) top 5
unrated recommendations and the Redis state after the read-through. -/
structure DisplayResult where
  top5 : List Rec
  rs : RedisState
  deriving Repr

/-- `display_top_5_recommendations`: fetch top 20 through the cache, drop
the ones whose stringified id is a key of the `user_ratings` dict, keep 5,
and enrich each with the title from its `movie:<id>` hash. -/
def display_top_5_recommendations (db : Neo4jState) (rs : RedisState) (now : Nat)
    (user_id : Nat) (user_ratings : List (String × ℚ)) : DisplayResult :=
  let fr := get_recommendations_for_user db rs now user_id 20 600
  if fr.recs.isEmpty then ⟨[], fr.rs⟩
  else
    let unseen := fr.recs.filter
        (fun rc => (alookup user_ratings (toString rc.movie_id)).isNone)
    let top_5 := unseen.take 5
    if top_5.isEmpty then ⟨[], fr.rs⟩
    else
      let enriched := top_5.map (fun rc =>
        let t := match getMovieTitle fr.rs (toString rc.movie_id) with
          | some s => if s = "" then "(no title)" else s
          | none => "(no title)"
        { rc with title := some t })
      ⟨enriched, fr.rs⟩

/-- What `rate_movie` reports: cancellation before any write, or a completed
rating together with the recomputed average (`none` = the caller is told the
average could not be recomputed). -/
inductive RateOutcome where
  | cancelled : RateOutcome
  | rated : Option ℚ → RateOutcome
  deriving DecidableEq, Repr

/-- The four pieces of state `rate_movie` can touch, plus its outcome. -/
structure RateResult where
  outcome : RateOutcome
  db : Neo4jState
  rs : RedisState
  user_ratings : List (String × ℚ)
  deriving Repr

/-- The committed part of `rate_movie` (after all validation has passed),
for the selected `movie`: (1) upsert the rating edge in Neo4j, (2) recompute
the movie's average there, (3) push the average into the `movie:<id>` hash
only when step 2 produced one, (4) point-update the user's rating hash
(no TTL touched) and the in-memory dict. -/
def applyRating (db : Neo4jState) (rs : RedisState) (now : Nat) (user_id : Nat)
    (movie : Rec) (user_ratings : List (String × ℚ)) (rating_val : ℚ) : RateResult :=
  let movie_id := movie.movie_id
  let sid := toString movie_id
  -- step 1: upsert the edge (int(movie_id) undoes the str() above)
  let db1 := upsertRating db user_id movie_id rating_val
  -- step 2: recompute the average from the authoritative store
  let new_avg := computeAvgRating db1 movie_id
  -- step 3: propagate into the search projection when available
  let rs1 := match new_avg with
    | some a => setMovieAvg rs sid a
    | none => rs
  -- step 4: point-update the rating hash and the in-memory dict
  let rs2 := hsetUserField rs1 now user_id sid rating_val
  ⟨.rated new_avg, db1, rs2, aset user_ratings sid rating_val⟩

/-- `rate_movie`: validate the menu choice and the rating value (any failure
cancels before touching either store), then commit via `applyRating`.

`choice = none` models an empty or non-integer menu reply and
`rating_input = none` a rating string `float()` rejects. -/
def rate_movie (db : Neo4jState) (rs : RedisState) (now : Nat) (user_id : Nat)
    (recommendations : List Rec) (user_ratings : List (String × ℚ))
    (choice : Option Nat) (rating_input : Option ℚ) : RateResult :=
  if recommendations.isEmpty then ⟨.cancelled, db, rs, user_ratings⟩
  else
    match choice with
    | none => ⟨.cancelled, db, rs, user_ratings⟩
    | some idx =>
      if idx < 1 ∨ recommendations.length < idx then ⟨.cancelled, db, rs, user_ratings⟩
      else
        match rating_input with
        | none => ⟨.cancelled, db, rs, user_ratings⟩
        | some rating_val =>
          if ¬ ((1 : ℚ)/2 ≤ rating_val ∧ rating_val ≤ 5) then
            ⟨.cancelled, db, rs, user_ratings⟩
          else
            applyRating db rs now user_id (recommendations.getD (idx - 1) default)
              user_ratings rating_val

/-! ### The Part 4 session (`run_user_application`)

State held across one interactive session: both stores, the clock, the
logged-in user, the in-memory `user_ratings` dict, and the last displayed
recommendations.  Menu option 1 (search) writes nothing, so a search is not
a state transition; options 2 and 3 are `stepDisplay` / `stepRate`, and
`tick` lets any amount of time pass between menu actions (which is what
makes cache entries expire). -/
structure SessionState where
  db : Neo4jState
  rs : RedisState
  now : Nat
  userId : Nat
  userRatings : List (String × ℚ)
  lastRecs : List Rec

/-- Session start: `get_or_create_user`, `get_user_rated_movies`,
`cache_user_rated_movies`, `get_cached_user_ratings`. -/
def initSession (db : Neo4jState) (rs : RedisState) (now : Nat) (u : Nat) :
    SessionState :=
  let db1 := if u ∈ db.users then db else { db with users := u :: db.users }
  let rated := get_user_rated_movies db1 u
  let rs1 := cache_user_rated_movies rs now u rated 3600
  let dict := get_cached_user_ratings rs1 now u
  ⟨db1, rs1, now, u, dict, []⟩

/-- Menu option 2. -/
def stepDisplay (s : SessionState) : SessionState :=
  let d := display_top_5_recommendations s.db s.rs s.now s.userId s.userRatings
  { s with rs := d.rs, lastRecs := d.top5 }

/-- Menu option 3 (rating the `last_recommendations`). -/
def stepRate (s : SessionState) (choice : Option Nat) (rating_input : Option ℚ) :
    SessionState :=
  let res := rate_movie s.db s.rs s.now s.userId s.lastRecs s.userRatings
      choice rating_input
  { s with db := res.db, rs := res.rs, userRatings := res.user_ratings }

/-- The session states `run_user_application` can actually be in. -/
inductive Reachable : SessionState → Prop where
  | init (db : Neo4jState) (rs : RedisState) (now u : Nat) :
      Reachable (initSession db rs now u)
  | tick (s : SessionState) (d : Nat) (h : Reachable s) :
      Reachable { s with now := s.now + d }
  | display (s : SessionState) (h : Reachable s) : Reachable (stepDisplay s)
  | rate (s : SessionState) (choice : Option Nat) (ri : Option ℚ)
      (h : Reachable s) : Reachable (stepRate s choice ri)

/-- The session's one cross-component invariant: every entry of the live
Redis rating mapping for the session user is also in the in-memory
`user_ratings` dict (the dict can only over-approximate the cache, never
miss one of its entries). -/
def SessionInv (s : SessionState) : Prop :=
  ∀ k v, alookup (get_cached_user_ratings s.rs s.now s.userId) k = some v →
    alookup s.userRatings k = some v

/-! ### Infrastructure lemmas -/

theorem userHash_setUserList (rs : RedisState) (now u : Nat) (l : List RatedMovie)
    (ttl : Nat) : (setUserList rs now u l ttl).userHash = rs.userHash := rfl

theorem userHash_setexRecCache (rs : RedisState) (now u k : Nat) (p : RecPayload)
    (ttl : Nat) : (setexRecCache rs now u k p ttl).userHash = rs.userHash := rfl

theorem userHash_setMovieAvg (rs : RedisState) (sid : String) (a : ℚ) :
    (setMovieAvg rs sid a).userHash = rs.userHash := by
  unfold setMovieAvg
  split <;> rfl

theorem userList_setMovieAvg (rs : RedisState) (sid : String) (a : ℚ) :
    (setMovieAvg rs sid a).userList = rs.userList := by
  unfold setMovieAvg
  split <;> rfl

theorem userList_hsetUserField (rs : RedisState) (now u : Nat) (k : String) (v : ℚ) :
    (hsetUserField rs now u k v).userList = rs.userList := by
  unfold hsetUserField
  split <;> rfl

theorem movieHash_hsetUserField (rs : RedisState) (now u : Nat) (k : String) (v : ℚ) :
    (hsetUserField rs now u k v).movieHash = rs.movieHash := by
  unfold hsetUserField
  split <;> rfl

theorem userHash_congr (rs1 rs2 : RedisState) (now u : Nat)
    (h : rs1.userHash = rs2.userHash) : getUserHash rs1 now u = getUserHash rs2 now u := by
  unfold getUserHash
  rw [h]

theorem getUserHash_eq_some {rs : RedisState} {now u : Nat}
    {f : List (String × ℚ)} {e : Option Nat} (h : getUserHash rs now u = some (f, e)) :
    alookup rs.userHash u = some (f, e) ∧ liveOpt now e = true := by
  unfold getUserHash at h
  cases ha : alookup rs.userHash u with
  | none => rw [ha] at h; simp at h
  | some p =>
      obtain ⟨f', e'⟩ := p
      rw [ha] at h
      by_cases hl : liveOpt now e' = true
      · simp only [hl, if_true] at h
        simp only [Option.some.injEq, Prod.mk.injEq] at h
        obtain ⟨h1, h2⟩ := h
        subst h1
        subst h2
        exact ⟨rfl, hl⟩
      · simp [hl] at h

theorem getUserHash_of_alookup {rs : RedisState} {now u : Nat}
    {f : List (String × ℚ)} {e : Option Nat} (ha : alookup rs.userHash u = some (f, e))
    (hl : liveOpt now e = true) : getUserHash rs now u = some (f, e) := by
  unfold getUserHash
  rw [ha]
  simp [hl]

theorem getUserHash_of_alookup_none {rs : RedisState} {now u : Nat}
    (ha : alookup rs.userHash u = none) : getUserHash rs now u = none := by
  unfold getUserHash
  rw [ha]

theorem liveOpt_add (now ttl : Nat) (httl : 0 < ttl) :
    liveOpt now (some (now + ttl)) = true := by
  unfold liveOpt
  exact decide_eq_true (Nat.lt_add_of_pos_right httl)

theorem userHash_hsetUserMapping_none {rs : RedisState} {now u : Nat}
    {m : List (String × ℚ)} (h : getUserHash rs now u = none) :
    (hsetUserMapping rs now u m).userHash = aset rs.userHash u (asetAll [] m, none) := by
  unfold hsetUserMapping
  rw [h]

theorem userHash_hsetUserMapping_some {rs : RedisState} {now u : Nat}
    {m f : List (String × ℚ)} {e : Option Nat} (h : getUserHash rs now u = some (f, e)) :
    (hsetUserMapping rs now u m).userHash = aset rs.userHash u (asetAll f m, e) := by
  unfold hsetUserMapping
  rw [h]

theorem userHash_expireUserHash_some {rs : RedisState} {now u ttl : Nat}
    {f : List (String × ℚ)} {e : Option Nat} (h : getUserHash rs now u = some (f, e)) :
    (expireUserHash rs now u ttl).userHash = aset rs.userHash u (f, some (now + ttl)) := by
  unfold expireUserHash
  rw [h]

theorem userHash_hsetUserField_none {rs : RedisState} {now u : Nat}
    {k : String} {v : ℚ} (h : getUserHash rs now u = none) :
    (hsetUserField rs now u k v).userHash = aset rs.userHash u ([(k, v)], none) := by
  unfold hsetUserField
  rw [h]

theorem userHash_hsetUserField_some {rs : RedisState} {now u : Nat}
    {k : String} {v : ℚ} {f : List (String × ℚ)} {e : Option Nat}
    (h : getUserHash rs now u = some (f, e)) :
    (hsetUserField rs now u k v).userHash = aset rs.userHash u (aset f k v, e) := by
  unfold hsetUserField
  rw [h]

/-- Effect of a non-empty `cache_user_rated_movies` on the rating hash: the
authoritative mapping is merged over whatever live fields were there before
(`get_cached_user_ratings` of the prior state), and the TTL is reset. -/
theorem getUserHash_cache_nonempty (rs : RedisState) (now u ttl : Nat)
    (L : List RatedMovie) (hL : L.isEmpty = false) (httl : 0 < ttl) :
    getUserHash (cache_user_rated_movies rs now u L ttl) now u
      = some (asetAll (get_cached_user_ratings rs now u) (ratingsMapping L),
          some (now + ttl)) := by
  have h1 : (cache_user_rated_movies rs now u L ttl).userHash
      = (expireUserHash (hsetUserMapping rs now u (ratingsMapping L)) now u ttl).userHash := by
    unfold cache_user_rated_movies
    rw [hL]
    rfl
  cases hbase : getUserHash rs now u with
  | none =>
      have h2 := userHash_hsetUserMapping_none (m := ratingsMapping L) hbase
      have h3 : getUserHash (hsetUserMapping rs now u (ratingsMapping L)) now u
          = some (asetAll [] (ratingsMapping L), none) :=
        getUserHash_of_alookup (by rw [h2]; exact alookup_aset_self _ u _) rfl
      have h4 := @userHash_expireUserHash_some _ _ _ ttl _ _ h3
      have h5 : alookup (cache_user_rated_movies rs now u L ttl).userHash u
          = some (asetAll [] (ratingsMapping L), some (now + ttl)) := by
        rw [h1, h4]
        exact alookup_aset_self _ u _
      rw [getUserHash_of_alookup h5 (liveOpt_add now ttl httl)]
      unfold get_cached_user_ratings
      rw [hbase]
  | some p =>
      obtain ⟨f, e⟩ := p
      have h2 := userHash_hsetUserMapping_some (m := ratingsMapping L) hbase
      have h3 : getUserHash (hsetUserMapping rs now u (ratingsMapping L)) now u
          = some (asetAll f (ratingsMapping L), e) :=
        getUserHash_of_alookup (by rw [h2]; exact alookup_aset_self _ u _)
          (getUserHash_eq_some hbase).2
      have h4 := @userHash_expireUserHash_some _ _ _ ttl _ _ h3
      have h5 : alookup (cache_user_rated_movies rs now u L ttl).userHash u
          = some (asetAll f (ratingsMapping L), some (now + ttl)) := by
        rw [h1, h4]
        exact alookup_aset_self _ u _
      rw [getUserHash_of_alookup h5 (liveOpt_add now ttl httl)]
      unfold get_cached_user_ratings
      rw [hbase]

theorem get_cached_eq_of_getUserHash {rs : RedisState} {now u : Nat}
    {f : List (String × ℚ)} {e : Option Nat} (h : getUserHash rs now u = some (f, e)) :
    get_cached_user_ratings rs now u = f := by
  unfold get_cached_user_ratings
  rw [h]

theorem get_cached_eq_nil_of_none {rs : RedisState} {now u : Nat}
    (h : getUserHash rs now u = none) : get_cached_user_ratings rs now u = [] := by
  unfold get_cached_user_ratings
  rw [h]

/-- The field keys of `ratingsMapping L` are keys of `L`. -/
theorem keys_ratingsMapping (L : List RatedMovie) (x : String)
    (h : x ∈ (ratingsMapping L).map Prod.fst) : x ∈ L.map RatedMovie.movie_id := by
  unfold ratingsMapping at h
  rcases mem_keys_asetAll _ [] x h with hm | hm
  · simp at hm
  · rw [List.map_map] at hm
    exact hm

/-- Looking up a movie of `L` in `ratingsMapping L` (duplicate-free ids)
yields its rating. -/
theorem alookup_ratingsMapping (L : List RatedMovie) (m : RatedMovie)
    (hnd : (L.map RatedMovie.movie_id).Nodup) (hm : m ∈ L) :
    alookup (ratingsMapping L) m.movie_id = some m.rating := by
  have hkeys : ((L.map (fun m => (m.movie_id, m.rating))).map Prod.fst).Nodup := by
    rw [List.map_map]
    exact hnd
  exact alookup_asetAll_of_alookup _ [] _ _ hkeys
    (alookup_of_mem_nodup _ _ _ hkeys (List.mem_map.mpr ⟨m, hm, rfl⟩))

/-! ### Claim theorems -/

/-- C5: `LoadAndCache(u, [])` (`cache_user_rated_movies` with an empty rated
list) deletes any existing mapping (a) — leaving it absent, not an empty
mapping — and writes list (b) as an explicit empty serialized list with the
TTL; for a non-empty list it writes both representations with
TTL = T_ratings = 3600s (every entry of the list is in the mapping, and the
mapping's expiry is `now + 3600`). -/
theorem rating_set_emptiness_asymmetry (rs : RedisState) (now u : Nat)
    (L : List RatedMovie) (hnd : (L.map RatedMovie.movie_id).Nodup) :
    (L = [] →
      getUserHash (cache_user_rated_movies rs now u L 3600) now u = none ∧
      alookup (cache_user_rated_movies rs now u L 3600).userList u
        = some ([], now + 3600)) ∧
    (L ≠ [] →
      alookup (cache_user_rated_movies rs now u L 3600).userList u
        = some (L, now + 3600) ∧
      (getUserHash (cache_user_rated_movies rs now u L 3600) now u).map Prod.snd
        = some (some (now + 3600)) ∧
      ∀ m ∈ L,
        alookup (get_cached_user_ratings (cache_user_rated_movies rs now u L 3600) now u)
          m.movie_id = some m.rating) := by
  constructor
  · rintro rfl
    constructor
    · exact getUserHash_of_alookup_none (alookup_adel_self rs.userHash u)
    · exact alookup_aset_self _ u _
  · intro hne
    have hL : L.isEmpty = false := by
      cases L with
      | nil => exact absurd rfl hne
      | cons a t => rfl
    have hhash := getUserHash_cache_nonempty rs now u 3600 L hL (by norm_num)
    refine ⟨alookup_aset_self _ u _, by rw [hhash]; rfl, ?_⟩
    intro m hm
    rw [get_cached_eq_of_getUserHash hhash]
    have hmap : ((ratingsMapping L).map Prod.fst).Nodup := by
      unfold ratingsMapping
      exact nodup_keys_asetAll _ [] (by simp)
    exact alookup_asetAll_of_alookup _ _ _ _ hmap (alookup_ratingsMapping L m hnd hm)

/-- Witness for C5 at a concrete state: the empty-list call leaves the
mapping absent, and a one-element call stores that element's rating with
the 3600s expiry. -/
theorem rating_set_emptiness_asymmetry_witness :
    getUserHash (cache_user_rated_movies ⟨[], [], [], []⟩ 0 12 [] 3600) 0 12 = none ∧
    alookup
      (get_cached_user_ratings
        (cache_user_rated_movies ⟨[], [], [], []⟩ 0 12 [⟨"7", "Seven", 3⟩] 3600) 0 12)
      "7" = some 3 :=
  ⟨((rating_set_emptiness_asymmetry ⟨[], [], [], []⟩ 0 12 [] (by simp)).1 rfl).1,
   (((rating_set_emptiness_asymmetry ⟨[], [], [], []⟩ 0 12 [⟨"7", "Seven", 3⟩]
      (by simp)).2 (by simp)).2.2 ⟨"7", "Seven", 3⟩ (by simp))⟩

/-- C10: a non-empty `cache_user_rated_movies` merges into an existing live
mapping (a) rather than replacing it — a pre-existing field whose id does
not occur in the loaded list is still in the mapping afterwards (with the
refreshed TTL on the hash). -/
theorem load_and_cache_merges_existing_fields (rs : RedisState) (now u : Nat)
    (L : List RatedMovie) (x : String) (v : ℚ) (f : List (String × ℚ)) (e : Option Nat)
    (hne : L ≠ []) (hx : x ∉ L.map RatedMovie.movie_id)
    (hprev : getUserHash rs now u = some (f, e)) (hxv : alookup f x = some v) :
    alookup (get_cached_user_ratings (cache_user_rated_movies rs now u L 3600) now u) x
      = some v := by
  have hL : L.isEmpty = false := by
    cases L with
    | nil => exact absurd rfl hne
    | cons a t => rfl
  have hhash := getUserHash_cache_nonempty rs now u 3600 L hL (by norm_num)
  rw [get_cached_eq_of_getUserHash hhash, get_cached_eq_of_getUserHash hprev]
  rw [alookup_asetAll_not_mem _ _ _ (fun hmem => hx (keys_ratingsMapping L x hmem))]
  exact hxv

/-- Witness for C10 at a concrete state: a stale field `"9" ↦ 2` survives a
reload that only contains movie `"7"`. -/
theorem load_and_cache_merges_existing_fields_witness :
    alookup
      (get_cached_user_ratings
        (cache_user_rated_movies ⟨[], [(12, ([("9", 2)], some 100))], [], []⟩ 0 12
          [⟨"7", "Seven", 3⟩] 3600) 0 12)
      "9" = some 2 :=
  load_and_cache_merges_existing_fields ⟨[], [(12, ([("9", 2)], some 100))], [], []⟩ 0 12
    [⟨"7", "Seven", 3⟩] "9" 2 [("9", 2)] (some 100)
    (by simp) (by decide) (by decide) (by decide)

/-! ### The write path: `rate_movie` lemmas and claims C3, C4, C8, C9 -/

/-- `rate_movie` with a valid selection and rating commits the rating. -/
theorem rate_movie_eq_applyRating (db : Neo4jState) (rs : RedisState) (now u : Nat)
    (recs : List Rec) (dict : List (String × ℚ)) (idx : Nat) (rv : ℚ)
    (hrecs : recs.isEmpty = false) (h1 : 1 ≤ idx) (h2 : idx ≤ recs.length)
    (hr : (1 : ℚ)/2 ≤ rv ∧ rv ≤ 5) :
    rate_movie db rs now u recs dict (some idx) (some rv)
      = applyRating db rs now u (recs.getD (idx - 1) default) dict rv := by
  have h1' : ¬ idx < 1 := Nat.not_lt.mpr h1
  have h2' : ¬ recs.length < idx := Nat.not_lt.mpr h2
  simp [rate_movie, hrecs, h1', h2', hr.1, hr.2]
  intro hlt
  exfalso
  linarith [hr.1, hlt]

theorem applyRating_rs (db : Neo4jState) (rs : RedisState) (now u : Nat)
    (movie : Rec) (dict : List (String × ℚ)) (rv : ℚ) :
    (applyRating db rs now u movie dict rv).rs
      = hsetUserField
          (match computeAvgRating (upsertRating db u movie.movie_id rv) movie.movie_id with
           | some a => setMovieAvg rs (toString movie.movie_id) a
           | none => rs)
          now u (toString movie.movie_id) rv := rfl

theorem applyRating_db (db : Neo4jState) (rs : RedisState) (now u : Nat)
    (movie : Rec) (dict : List (String × ℚ)) (rv : ℚ) :
    (applyRating db rs now u movie dict rv).db
      = upsertRating db u movie.movie_id rv := rfl

theorem applyRating_outcome (db : Neo4jState) (rs : RedisState) (now u : Nat)
    (movie : Rec) (dict : List (String × ℚ)) (rv : ℚ) :
    (applyRating db rs now u movie dict rv).outcome
      = RateOutcome.rated
          (computeAvgRating (upsertRating db u movie.movie_id rv) movie.movie_id) := rfl

/-- The state `applyRating` hands to the step-4 `HSET` differs from the
input state only in the `movie:` namespace. -/
theorem applyRating_rs_eq (db : Neo4jState) (rs : RedisState) (now u : Nat)
    (movie : Rec) (dict : List (String × ℚ)) (rv : ℚ) :
    ∃ rsX, (applyRating db rs now u movie dict rv).rs
        = hsetUserField rsX now u (toString movie.movie_id) rv
      ∧ rsX.userHash = rs.userHash ∧ rsX.userList = rs.userList := by
  cases havg : computeAvgRating (upsertRating db u movie.movie_id rv) movie.movie_id with
  | none => exact ⟨rs, by rw [applyRating_rs, havg], rfl, rfl⟩
  | some a =>
      exact ⟨setMovieAvg rs (toString movie.movie_id) a,
        by rw [applyRating_rs, havg],
        userHash_setMovieAvg rs _ a, userList_setMovieAvg rs _ a⟩

/-- A single-field `HSET` is immediately visible through `HGETALL`. -/
theorem get_cached_after_hsetUserField (rs : RedisState) (now u : Nat)
    (k : String) (v : ℚ) :
    alookup (get_cached_user_ratings (hsetUserField rs now u k v) now u) k = some v := by
  cases h : getUserHash rs now u with
  | none =>
      have h2 := userHash_hsetUserField_none (k := k) (v := v) h
      have h3 : getUserHash (hsetUserField rs now u k v) now u = some ([(k, v)], none) :=
        getUserHash_of_alookup (by rw [h2]; exact alookup_aset_self _ u _) rfl
      rw [get_cached_eq_of_getUserHash h3]
      simp [alookup]
  | some p =>
      obtain ⟨f, e⟩ := p
      have h2 := userHash_hsetUserField_some (k := k) (v := v) h
      have h3 : getUserHash (hsetUserField rs now u k v) now u = some (aset f k v, e) :=
        getUserHash_of_alookup (by rw [h2]; exact alookup_aset_self _ u _)
          (getUserHash_eq_some h).2
      rw [get_cached_eq_of_getUserHash h3]
      exact alookup_aset_self _ _ _

theorem userList_applyRating (db : Neo4jState) (rs : RedisState) (now u : Nat)
    (movie : Rec) (dict : List (String × ℚ)) (rv : ℚ) :
    (applyRating db rs now u movie dict rv).rs.userList = rs.userList := by
  obtain ⟨rsX, hEq, _, hUL⟩ := applyRating_rs_eq db rs now u movie dict rv
  rw [hEq, userList_hsetUserField, hUL]

/-- C4: a completed `SubmitRating(u, e, r)` with `r ∈ [0.5, 5.0]` is visible
in an immediately following `GetRatings(u)` (`get_cached_user_ratings`)
without waiting for any TTL expiry, while the list-form representation (b)
is left untouched (it may still show the pre-write value until expiry). -/
theorem write_propagates_immediately (db : Neo4jState) (rs : RedisState) (now u : Nat)
    (recs : List Rec) (dict : List (String × ℚ)) (idx : Nat) (rv : ℚ)
    (hrecs : recs.isEmpty = false) (h1 : 1 ≤ idx) (h2 : idx ≤ recs.length)
    (hr : (1 : ℚ)/2 ≤ rv ∧ rv ≤ 5) :
    alookup
      (get_cached_user_ratings
        (rate_movie db rs now u recs dict (some idx) (some rv)).rs now u)
      (toString (recs.getD (idx - 1) default).movie_id) = some rv ∧
    (rate_movie db rs now u recs dict (some idx) (some rv)).rs.userList
      = rs.userList := by
  rw [rate_movie_eq_applyRating db rs now u recs dict idx rv hrecs h1 h2 hr]
  constructor
  · obtain ⟨rsX, hEq, _, _⟩ :=
      applyRating_rs_eq db rs now u (recs.getD (idx - 1) default) dict rv
    rw [hEq]
    exact get_cached_after_hsetUserField rsX now u _ rv
  · exact userList_applyRating db rs now u _ dict rv

/-- Witness for C4: user 12 rates movie 7 with 3 stars; the rating hash
shows `"7" ↦ 3` immediately and the (absent) list form is untouched. -/
theorem write_propagates_immediately_witness :
    alookup
      (get_cached_user_ratings
        (rate_movie ⟨[12], [(7, "Seven")], []⟩ ⟨[], [], [], []⟩ 0 12
          [⟨7, 4, none⟩] [] (some 1) (some 3)).rs 0 12)
      (toString (([⟨7, 4, none⟩] : List Rec).getD 0 default).movie_id) = some 3 :=
  (write_propagates_immediately ⟨[12], [(7, "Seven")], []⟩ ⟨[], [], [], []⟩ 0 12
    [⟨7, 4, none⟩] [] 1 3 (by decide) (by decide) (by decide) (by norm_num)).1

/-- C3: when step 2 of `rate_movie` cannot produce an average
(`computeAvgRating` returns `none`), step 3 is skipped (the `movie:`
namespace is untouched), the caller is told the average could not be
recomputed (`rated none`), and the step-1 write is not rolled back: the
final Neo4j state is exactly the post-step-1 state, and the step-4 update
of the user's rating cache still happens. -/
theorem recompute_failure_preserves_rating (db : Neo4jState) (rs : RedisState)
    (now u : Nat) (recs : List Rec) (dict : List (String × ℚ)) (idx : Nat) (rv : ℚ)
    (hrecs : recs.isEmpty = false) (h1 : 1 ≤ idx) (h2 : idx ≤ recs.length)
    (hr : (1 : ℚ)/2 ≤ rv ∧ rv ≤ 5)
    (hfail : computeAvgRating
        (upsertRating db u (recs.getD (idx - 1) default).movie_id rv)
        (recs.getD (idx - 1) default).movie_id = none) :
    (rate_movie db rs now u recs dict (some idx) (some rv)).outcome
        = RateOutcome.rated none ∧
    (rate_movie db rs now u recs dict (some idx) (some rv)).rs.movieHash
        = rs.movieHash ∧
    (rate_movie db rs now u recs dict (some idx) (some rv)).db
        = upsertRating db u (recs.getD (idx - 1) default).movie_id rv ∧
    alookup
      (get_cached_user_ratings
        (rate_movie db rs now u recs dict (some idx) (some rv)).rs now u)
      (toString (recs.getD (idx - 1) default).movie_id) = some rv := by
  rw [rate_movie_eq_applyRating db rs now u recs dict idx rv hrecs h1 h2 hr]
  refine ⟨?_, ?_, applyRating_db .., ?_⟩
  · rw [applyRating_outcome, hfail]
  · rw [applyRating_rs, hfail]
    exact movieHash_hsetUserField rs now u _ rv
  · rw [applyRating_rs, hfail]
    exact get_cached_after_hsetUserField rs now u _ rv

/-- Witness for C3: rating a movie that does not exist in the authoritative
store (a stale recommendation for movie 8) makes the average recompute
yield null; the caller is told, and the rating-cache update still happens. -/
theorem recompute_failure_preserves_rating_witness :
    (rate_movie ⟨[12], [], []⟩ ⟨[], [], [], []⟩ 0 12 [⟨8, 4, none⟩] []
        (some 1) (some 3)).outcome = RateOutcome.rated none ∧
    alookup
      (get_cached_user_ratings
        (rate_movie ⟨[12], [], []⟩ ⟨[], [], [], []⟩ 0 12 [⟨8, 4, none⟩] []
          (some 1) (some 3)).rs 0 12)
      (toString (([⟨8, 4, none⟩] : List Rec).getD 0 default).movie_id) = some 3 := by
  have h := recompute_failure_preserves_rating ⟨[12], [], []⟩ ⟨[], [], [], []⟩ 0 12
    [⟨8, 4, none⟩] [] 1 3 (by decide) (by decide) (by decide) (by norm_num) (by decide)
  exact ⟨h.1, h.2.2.2⟩

/-- C9: the step-4 point update of `rate_movie` never sets or refreshes a
TTL on the rating mapping (a): a live hash keeps its expiry unchanged, and
an absent (e.g. expired) hash is recreated with no expiry at all, so that
recreated mapping stays visible at every future clock value. -/
theorem point_update_preserves_ttl (db : Neo4jState) (rs : RedisState) (now u : Nat)
    (recs : List Rec) (dict : List (String × ℚ)) (idx : Nat) (rv : ℚ)
    (hrecs : recs.isEmpty = false) (h1 : 1 ≤ idx) (h2 : idx ≤ recs.length)
    (hr : (1 : ℚ)/2 ≤ rv ∧ rv ≤ 5) :
    (∀ f e, getUserHash rs now u = some (f, e) →
        getUserHash (rate_movie db rs now u recs dict (some idx) (some rv)).rs now u
          = some (aset f (toString (recs.getD (idx - 1) default).movie_id) rv, e)) ∧
    (getUserHash rs now u = none →
        alookup (rate_movie db rs now u recs dict (some idx) (some rv)).rs.userHash u
          = some ([(toString (recs.getD (idx - 1) default).movie_id, rv)], none) ∧
        ∀ t, getUserHash (rate_movie db rs now u recs dict (some idx) (some rv)).rs t u
          = some ([(toString (recs.getD (idx - 1) default).movie_id, rv)], none)) := by
  rw [rate_movie_eq_applyRating db rs now u recs dict idx rv hrecs h1 h2 hr]
  obtain ⟨rsX, hEq, hUH, _⟩ :=
    applyRating_rs_eq db rs now u (recs.getD (idx - 1) default) dict rv
  rw [hEq]
  constructor
  · intro f e hsome
    have hX : getUserHash rsX now u = some (f, e) := by
      rw [userHash_congr rsX rs now u hUH]
      exact hsome
    have hset := userHash_hsetUserField_some
      (k := toString (recs.getD (idx - 1) default).movie_id) (v := rv) hX
    exact getUserHash_of_alookup (by rw [hset]; exact alookup_aset_self _ u _)
      (getUserHash_eq_some hsome).2
  · intro hnone
    have hX : getUserHash rsX now u = none := by
      rw [userHash_congr rsX rs now u hUH]
      exact hnone
    have hset := userHash_hsetUserField_none
      (k := toString (recs.getD (idx - 1) default).movie_id) (v := rv) hX
    refine ⟨by rw [hset]; exact alookup_aset_self _ u _, fun t => ?_⟩
    exact getUserHash_of_alookup (by rw [hset]; exact alookup_aset_self _ u _) rfl

/-- Witness for C9: with a live hash `{"9": 2}` expiring at clock 100, the
point update merges `"7" ↦ 3` and keeps the expiry at 100. -/
theorem point_update_preserves_ttl_witness :
    getUserHash
      (rate_movie ⟨[12], [(7, "Seven")], []⟩ ⟨[], [(12, ([("9", 2)], some 100))], [], []⟩
        0 12 [⟨7, 4, none⟩] [("9", 2)] (some 1) (some 3)).rs 0 12
      = some (aset [("9", 2)]
          (toString (([⟨7, 4, none⟩] : List Rec).getD 0 default).movie_id) 3,
          some 100) :=
  (point_update_preserves_ttl ⟨[12], [(7, "Seven")], []⟩
    ⟨[], [(12, ([("9", 2)], some 100))], [], []⟩ 0 12 [⟨7, 4, none⟩] [("9", 2)] 1 3
    (by decide) (by decide) (by decide) (by norm_num)).1
    [("9", 2)] (some 100) (by decide)

/-- C8: a `rate_movie` call whose rating value is unparseable or outside
`[0.5, 5.0]` is rejected before any store mutation — the result is a
cancellation carrying back the Neo4j state, the Redis state, and the
in-memory dict entirely unchanged. -/
theorem invalid_rating_rejected_before_mutation (db : Neo4jState) (rs : RedisState)
    (now u : Nat) (recs : List Rec) (dict : List (String × ℚ)) (choice : Option Nat)
    (ri : Option ℚ)
    (hbad : ri = none ∨ ∃ r, ri = some r ∧ ¬((1 : ℚ)/2 ≤ r ∧ r ≤ 5)) :
    rate_movie db rs now u recs dict choice ri
      = ⟨RateOutcome.cancelled, db, rs, dict⟩ := by
  unfold rate_movie
  by_cases hE : recs.isEmpty = true
  · rw [if_pos hE]
  · rw [if_neg hE]
    cases choice with
    | none => rfl
    | some idx =>
        by_cases hi : idx < 1 ∨ recs.length < idx
        · exact if_pos hi
        · rcases hbad with rfl | ⟨r, rfl, hout⟩
          · simp [hi]
          · simp [hi]
            intro _ _ hr1 hr2
            exact absurd ⟨(by linarith : (1 : ℚ)/2 ≤ r), hr2⟩ hout

/-- Witness for C8: rating 6 (outside the valid range) is rejected with the
whole prior state handed back unchanged. -/
theorem invalid_rating_rejected_before_mutation_witness :
    rate_movie ⟨[12], [(7, "Seven")], []⟩ ⟨[], [], [], []⟩ 0 12 [⟨7, 4, none⟩] []
        (some 1) (some 6)
      = ⟨RateOutcome.cancelled, ⟨[12], [(7, "Seven")], []⟩, ⟨[], [], [], []⟩, []⟩ :=
  invalid_rating_rejected_before_mutation ⟨[12], [(7, "Seven")], []⟩ ⟨[], [], [], []⟩
    0 12 [⟨7, 4, none⟩] [] (some 1) (some 6) (Or.inr ⟨6, rfl, by norm_num⟩)

/-! ### The recommendation cache: claim C2 -/

theorem getRecs_miss {db : Neo4jState} {rs : RedisState} {now u k ttl : Nat}
    (h : getRecCache rs now u k = none) :
    get_recommendations_for_user db rs now u k ttl
      = ⟨query_top_k_recommendations_from_neo4j db u k,
          setexRecCache rs now u k
            (RecPayload.good (query_top_k_recommendations_from_neo4j db u k)) ttl,
          1, 1⟩ := by
  unfold get_recommendations_for_user
  rw [h]

theorem getRecs_hit {db : Neo4jState} {rs : RedisState} {now u k ttl : Nat}
    {l : List Rec} (h : getRecCache rs now u k = some (RecPayload.good l)) :
    get_recommendations_for_user db rs now u k ttl = ⟨l, rs, 0, 0⟩ := by
  unfold get_recommendations_for_user
  rw [h]

theorem getRecCache_after_setex (rs : RedisState) (now u k : Nat) (p : RecPayload)
    (ttl now' : Nat) (h : now' < now + ttl) :
    getRecCache (setexRecCache rs now u k p ttl) now' u k = some p := by
  unfold getRecCache setexRecCache
  rw [alookup_aset_self]
  simp [h]

/-- C2: a `get_recommendations_for_user` call with no live cache entry for
`(user_id, k)` performs exactly one authoritative-store query and one cache
write, storing the returned list verbatim under `(user_id, k)` with TTL
600s; every later call within those 600 seconds returns that same list with
zero authoritative-store queries, zero cache writes, and no state change.
An empty result list is cached exactly the same way (the statement carries
no non-emptiness assumption, and the witness caches an empty list). -/
theorem cache_aside_correctness (db : Neo4jState) (rs : RedisState) (now u k : Nat)
    (hmiss : getRecCache rs now u k = none) :
    (get_recommendations_for_user db rs now u k 600).neo4jQueries = 1 ∧
    (get_recommendations_for_user db rs now u k 600).cacheWrites = 1 ∧
    (get_recommendations_for_user db rs now u k 600).recs
      = query_top_k_recommendations_from_neo4j db u k ∧
    alookup (get_recommendations_for_user db rs now u k 600).rs.recCache (u, k)
      = some (RecPayload.good (query_top_k_recommendations_from_neo4j db u k),
          now + 600) ∧
    ∀ now', now ≤ now' → now' < now + 600 →
      (get_recommendations_for_user db
          (get_recommendations_for_user db rs now u k 600).rs now' u k 600).recs
        = query_top_k_recommendations_from_neo4j db u k ∧
      (get_recommendations_for_user db
          (get_recommendations_for_user db rs now u k 600).rs now' u k 600).neo4jQueries
        = 0 ∧
      (get_recommendations_for_user db
          (get_recommendations_for_user db rs now u k 600).rs now' u k 600).cacheWrites
        = 0 ∧
      (get_recommendations_for_user db
          (get_recommendations_for_user db rs now u k 600).rs now' u k 600).rs
        = (get_recommendations_for_user db rs now u k 600).rs := by
  rw [getRecs_miss hmiss]
  refine ⟨rfl, rfl, rfl, alookup_aset_self _ _ _, ?_⟩
  intro now' _ hlt
  rw [getRecs_hit (getRecCache_after_setex rs now u k _ 600 now' hlt)]
  exact ⟨rfl, rfl, rfl, rfl⟩

/-- Witness for C2: user 42 in an empty store — the empty recommendation
list is computed once, cached, and a second call 300s later does not query
the store again. -/
theorem cache_aside_correctness_witness :
    (get_recommendations_for_user ⟨[], [], []⟩ ⟨[], [], [], []⟩ 0 42 10 600).neo4jQueries
      = 1 ∧
    (get_recommendations_for_user ⟨[], [], []⟩ ⟨[], [], [], []⟩ 0 42 10 600).recs = [] ∧
    (get_recommendations_for_user ⟨[], [], []⟩
        (get_recommendations_for_user ⟨[], [], []⟩ ⟨[], [], [], []⟩ 0 42 10 600).rs
        300 42 10 600).neo4jQueries = 0 := by
  have h := cache_aside_correctness ⟨[], [], []⟩ ⟨[], [], [], []⟩ 0 42 10 (by decide)
  exact ⟨h.1, by rw [h.2.2.1]; decide, (h.2.2.2.2 300 (by decide) (by decide)).2.1⟩

/-! ### Search query shaping: claim C7 -/

/-- C7 counterexample: the user-context search does **not** pass the query
string through unmodified — for the term `"star"` it builds
`"@title:star"`, restricting the query to the title field. -/
theorem query_rewrite_counterexample :
    buildTitleQuery "star" = "@title:star" ∧ "@title:star" ≠ "star" := by
  constructor
  · decide
  · decide

/-- C7 (amended): only the Part 3 demo (`redis_fulltext_search_demo`) passes
the query string through unmodified; `search_movies_with_user_context`
restricts the query to the title field by wrapping the caller's term as
`@title:term` (parenthesised exactly when the term contains a space),
embedding the term's characters verbatim — no escaping, no anchoring, no
other rewriting — and both paths paginate to at most 10 results. -/
theorem title_query_field_scoping (term : String) (raw : Option Int) :
    demoQueryString term = term ∧
    demoMaxResults raw ≤ 10 ∧
    (buildTitleQuery term).data
      = (if term.data.contains ' ' = true
         then "@title:(".data ++ term.data ++ ")".data
         else "@title:".data ++ term.data) ∧
    searchPageSize = 10 := by
  refine ⟨rfl, ?_, ?_, rfl⟩
  · unfold demoMaxResults
    cases raw with
    | none => exact Nat.le_refl 10
    | some n =>
        by_cases h1 : n < 1
        · simp [h1]
        · by_cases h2 : n > 10
          · simp [h1, h2]
          · simp [h1, h2]
            omega
  · unfold buildTitleQuery
    by_cases hsp : term.data.contains ' ' = true
    · rw [if_pos hsp, if_pos hsp]
      show ("@title:(" ++ term ++ ")").data = _
      simp
    · rw [if_neg hsp, if_neg hsp]
      show ("@title:" ++ term).data = _
      simp

/-! ### The session invariant (claims C1 and C6) -/

/-- A hash entry live at a later clock was already live (with the same
fields) at any earlier clock. -/
theorem getUserHash_mono {rs : RedisState} {u : Nat} {f : List (String × ℚ)}
    {e : Option Nat} {now d : Nat} (h : getUserHash rs (now + d) u = some (f, e)) :
    getUserHash rs now u = some (f, e) := by
  obtain ⟨ha, hl⟩ := getUserHash_eq_some h
  refine getUserHash_of_alookup ha ?_
  cases e with
  | none => rfl
  | some t =>
      unfold liveOpt at hl ⊢
      have := of_decide_eq_true hl
      exact decide_eq_true (by omega)

theorem userHash_getRecs (db : Neo4jState) (rs : RedisState) (now u k ttl : Nat) :
    (get_recommendations_for_user db rs now u k ttl).rs.userHash = rs.userHash := by
  unfold get_recommendations_for_user
  split <;> rfl

theorem get_cached_congr (rs1 rs2 : RedisState) (now u : Nat)
    (h : rs1.userHash = rs2.userHash) :
    get_cached_user_ratings rs1 now u = get_cached_user_ratings rs2 now u := by
  unfold get_cached_user_ratings
  rw [userHash_congr rs1 rs2 now u h]

theorem display_rs (db : Neo4jState) (rs : RedisState) (now u : Nat)
    (dict : List (String × ℚ)) :
    (display_top_5_recommendations db rs now u dict).rs
      = (get_recommendations_for_user db rs now u 20 600).rs := by
  unfold display_top_5_recommendations
  dsimp only
  split
  · rfl
  · split <;> rfl

/-- Every possible result of `rate_movie`: cancellation with the state
handed back unchanged, or a committed `applyRating`. -/
theorem rate_movie_cases (db : Neo4jState) (rs : RedisState) (now u : Nat)
    (recs : List Rec) (dict : List (String × ℚ)) (choice : Option Nat) (ri : Option ℚ) :
    rate_movie db rs now u recs dict choice ri
        = ⟨RateOutcome.cancelled, db, rs, dict⟩ ∨
    ∃ movie rv, rate_movie db rs now u recs dict choice ri
        = applyRating db rs now u movie dict rv := by
  by_cases hE : recs.isEmpty = true
  · left
    unfold rate_movie
    rw [if_pos hE]
  · cases choice with
    | none =>
        left
        simp [rate_movie, hE]
    | some idx =>
        by_cases hi : idx < 1 ∨ recs.length < idx
        · left
          unfold rate_movie
          rw [if_neg hE]
          exact if_pos hi
        · cases ri with
          | none =>
              left
              simp [rate_movie, hE, hi]
          | some rv =>
              by_cases hr : (1 : ℚ)/2 ≤ rv ∧ rv ≤ 5
              · right
                push_neg at hi
                exact ⟨recs.getD (idx - 1) default, rv,
                  rate_movie_eq_applyRating db rs now u recs dict idx rv
                    (Bool.eq_false_iff.mpr hE) hi.1 hi.2 hr⟩
              · left
                simp [rate_movie, hE, hi]
                intro _ _ hr1 hr2
                exact absurd ⟨(by linarith : (1 : ℚ)/2 ≤ rv), hr2⟩ hr

theorem sessionInv_init (db : Neo4jState) (rs : RedisState) (now u : Nat) :
    SessionInv (initSession db rs now u) := by
  intro k v hk
  exact hk

theorem sessionInv_tick {s : SessionState} (d : Nat) (h : SessionInv s) :
    SessionInv { s with now := s.now + d } := by
  intro k v hk
  dsimp only at hk ⊢
  cases hg : getUserHash s.rs (s.now + d) s.userId with
  | none =>
      rw [get_cached_eq_nil_of_none hg] at hk
      simp [alookup] at hk
  | some p =>
      obtain ⟨f, e⟩ := p
      rw [get_cached_eq_of_getUserHash hg] at hk
      refine h k v ?_
      rw [get_cached_eq_of_getUserHash (getUserHash_mono hg)]
      exact hk

theorem sessionInv_display {s : SessionState} (h : SessionInv s) :
    SessionInv (stepDisplay s) := by
  intro k v hk
  dsimp only [stepDisplay] at hk ⊢
  refine h k v ?_
  rw [get_cached_congr _ s.rs s.now s.userId
    (by rw [display_rs]; exact userHash_getRecs s.db s.rs s.now s.userId 20 600)] at hk
  exact hk

theorem sessionInv_rate {s : SessionState} (choice : Option Nat) (ri : Option ℚ)
    (h : SessionInv s) : SessionInv (stepRate s choice ri) := by
  rcases rate_movie_cases s.db s.rs s.now s.userId s.lastRecs s.userRatings choice ri
    with hc | ⟨movie, rv, hc⟩
  · intro k v hk
    dsimp only [stepRate] at hk ⊢
    rw [hc] at hk ⊢
    exact h k v hk
  · intro k v hk
    dsimp only [stepRate] at hk ⊢
    rw [hc] at hk ⊢
    obtain ⟨rsX, hEq, hUH, _⟩ :=
      applyRating_rs_eq s.db s.rs s.now s.userId movie s.userRatings rv
    rw [hEq] at hk
    show alookup (aset s.userRatings (toString movie.movie_id) rv) k = some v
    by_cases hks : toString movie.movie_id = k
    · subst hks
      rw [get_cached_after_hsetUserField rsX s.now s.userId _ rv] at hk
      rw [alookup_aset_self]
      exact hk
    · rw [alookup_aset_ne _ _ _ _ (fun hh => hks hh.symm)]
      cases hg : getUserHash rsX s.now s.userId with
      | none =>
          have hset := userHash_hsetUserField_none
            (k := toString movie.movie_id) (v := rv) hg
          have h3 : getUserHash (hsetUserField rsX s.now s.userId
              (toString movie.movie_id) rv) s.now s.userId
              = some ([(toString movie.movie_id, rv)], none) :=
            getUserHash_of_alookup (by rw [hset]; exact alookup_aset_self _ _ _) rfl
          rw [get_cached_eq_of_getUserHash h3] at hk
          simp [alookup, hks] at hk
      | some p =>
          obtain ⟨f, e⟩ := p
          have hset := userHash_hsetUserField_some
            (k := toString movie.movie_id) (v := rv) hg
          have h3 : getUserHash (hsetUserField rsX s.now s.userId
              (toString movie.movie_id) rv) s.now s.userId
              = some (aset f (toString movie.movie_id) rv, e) :=
            getUserHash_of_alookup (by rw [hset]; exact alookup_aset_self _ _ _)
              (getUserHash_eq_some hg).2
          rw [get_cached_eq_of_getUserHash h3,
            alookup_aset_ne _ _ _ _ (fun hh => hks hh.symm)] at hk
          refine h k v ?_
          have hs : getUserHash s.rs s.now s.userId = some (f, e) := by
            rw [userHash_congr s.rs rsX s.now s.userId hUH.symm]
            exact hg
          rw [get_cached_eq_of_getUserHash hs]
          exact hk

/-- In every reachable session state, the in-memory dict over-approximates
the live rating cache. -/
theorem reachable_inv {s : SessionState} (h : Reachable s) : SessionInv s := by
  induction h with
  | init db rs now u => exact sessionInv_init db rs now u
  | tick s d h ih => exact sessionInv_tick d ih
  | display s h ih => exact sessionInv_display ih
  | rate s choice ri h ih => exact sessionInv_rate choice ri ih

/-- Every recommendation displayed by `display_top_5_recommendations`
passed the read-time filter: its stringified id is not a key of the
`user_ratings` dict the call was given. -/
theorem alookup_dict_of_mem_display (db : Neo4jState) (rs : RedisState) (now u : Nat)
    (dict : List (String × ℚ)) (rc : Rec)
    (h : rc ∈ (display_top_5_recommendations db rs now u dict).top5) :
    alookup dict (toString rc.movie_id) = none := by
  unfold display_top_5_recommendations at h
  dsimp only at h
  by_cases h1 : (get_recommendations_for_user db rs now u 20 600).recs.isEmpty = true
  · rw [if_pos h1] at h
    simp at h
  · rw [if_neg h1] at h
    by_cases h2 : (List.take 5 (List.filter
        (fun rc => (alookup dict (toString rc.movie_id)).isNone)
        (get_recommendations_for_user db rs now u 20 600).recs)).isEmpty = true
    · rw [if_pos h2] at h
      simp at h
    · rw [if_neg h2] at h
      dsimp only at h
      obtain ⟨rc0, hrc0, rfl⟩ := List.mem_map.mp h
      have hf := List.of_mem_filter (List.mem_of_mem_take hrc0)
      simpa [Option.isNone_iff_eq_none] using hf

/-- C1: in every reachable session state, the list returned by the
top-5-unrated flow contains no entity id that is present in the user's
(live) cached rating mapping `GetRatings(u)` at the time of that read: the
exclusion holds because the read-time filter is applied on every call
against the in-memory dict, which over-approximates the rating cache
(`reachable_inv`) — it is not a cache-write-time guarantee, and it holds
whatever the (possibly stale) cached recommendation list contains. -/
theorem recommendation_exclusion (s : SessionState) (h : Reachable s) :
    ((display_top_5_recommendations s.db s.rs s.now s.userId s.userRatings).top5).all
      (fun rc => (alookup (get_cached_user_ratings s.rs s.now s.userId)
          (toString rc.movie_id)).isNone) = true := by
  have hinv := reachable_inv h
  rw [List.all_eq_true]
  intro rc hrc
  have hd := alookup_dict_of_mem_display s.db s.rs s.now s.userId s.userRatings rc hrc
  cases hgr : alookup (get_cached_user_ratings s.rs s.now s.userId) (toString rc.movie_id) with
  | none => rfl
  | some v =>
      have := hinv _ v hgr
      rw [hd] at this
      simp at this

/-- Witness for C1: a session whose recommendation cache was seeded with a
stale entry for (user 12, k = 20) containing movie 5, while user 12 has
rated movie 7 — the displayed list is the filtered cache entry, and its
single id is not in the rating cache. -/
theorem recommendation_exclusion_witness :
    ((display_top_5_recommendations
        (initSession ⟨[12], [(7, "Seven")], [((12, 7), 3)]⟩
          ⟨[((12, 20), (RecPayload.good [⟨5, 7, none⟩], 1000))], [], [], []⟩ 0 12).db
        (initSession ⟨[12], [(7, "Seven")], [((12, 7), 3)]⟩
          ⟨[((12, 20), (RecPayload.good [⟨5, 7, none⟩], 1000))], [], [], []⟩ 0 12).rs
        (initSession ⟨[12], [(7, "Seven")], [((12, 7), 3)]⟩
          ⟨[((12, 20), (RecPayload.good [⟨5, 7, none⟩], 1000))], [], [], []⟩ 0 12).now
        (initSession ⟨[12], [(7, "Seven")], [((12, 7), 3)]⟩
          ⟨[((12, 20), (RecPayload.good [⟨5, 7, none⟩], 1000))], [], [], []⟩ 0 12).userId
        (initSession ⟨[12], [(7, "Seven")], [((12, 7), 3)]⟩
          ⟨[((12, 20), (RecPayload.good [⟨5, 7, none⟩], 1000))], [], [], []⟩ 0 12).userRatings).top5).all
      (fun rc => (alookup
          (get_cached_user_ratings
            (initSession ⟨[12], [(7, "Seven")], [((12, 7), 3)]⟩
              ⟨[((12, 20), (RecPayload.good [⟨5, 7, none⟩], 1000))], [], [], []⟩ 0 12).rs
            (initSession ⟨[12], [(7, "Seven")], [((12, 7), 3)]⟩
              ⟨[((12, 20), (RecPayload.good [⟨5, 7, none⟩], 1000))], [], [], []⟩ 0 12).now
            (initSession ⟨[12], [(7, "Seven")], [((12, 7), 3)]⟩
              ⟨[((12, 20), (RecPayload.good [⟨5, 7, none⟩], 1000))], [], [], []⟩ 0 12).userId)
          (toString rc.movie_id)).isNone) = true :=
  recommendation_exclusion
    (initSession ⟨[12], [(7, "Seven")], [((12, 7), 3)]⟩
      ⟨[((12, 20), (RecPayload.good [⟨5, 7, none⟩], 1000))], [], [], []⟩ 0 12)
    (Reachable.init ⟨[12], [(7, "Seven")], [((12, 7), 3)]⟩
      ⟨[((12, 20), (RecPayload.good [⟨5, 7, none⟩], 1000))], [], [], []⟩ 0 12)

/-- C6 counterexample: the search join is **not** recomputed from the
rating cache on every call.  In a reachable session (user 12 rated movie 7
at clock 0, then 4000 seconds pass so the 3600s rating hash expires), a
search result for movie 7 is annotated `seen = true` even though
`GetRatings(12)` is empty at that moment — the annotation came from the
in-memory dict captured at session start, not from the cache. -/
theorem search_join_counterexample :
    (annotateSearchDocs
        { initSession ⟨[12], [(7, "Seven")], [((12, 7), 3)]⟩ ⟨[], [], [], []⟩ 0 12
            with now := 4000 }.userRatings
        [⟨"movie:7", some "Seven", none, none⟩]).map (fun r => r.seen) = [true] ∧
    get_cached_user_ratings
        { initSession ⟨[12], [(7, "Seven")], [((12, 7), 3)]⟩ ⟨[], [], [], []⟩ 0 12
            with now := 4000 }.rs 4000 12 = [] ∧
    Reachable { initSession ⟨[12], [(7, "Seven")], [((12, 7), 3)]⟩ ⟨[], [], [], []⟩ 0 12
        with now := 4000 } := by
  refine ⟨by decide, by decide, ?_⟩
  exact Reachable.tick _ 4000
    (Reachable.init ⟨[12], [(7, "Seven")], [((12, 7), 3)]⟩ ⟨[], [], [], []⟩ 0 12)

/-- C6 (amended): for every search result, `seen` and `user_rating` are
computed from the session's in-memory rating dict (loaded from the rating
cache at session start and point-updated on each committed rating) — not
re-read from the rating cache per call — and in every reachable session
state that dict over-approximates the cache, so `seen` never under-reports:
any id present in `GetRatings(user_id)` at the time of the call is
annotated `seen = true` (it can over-report after the cache expires, per
the counterexample). -/
theorem search_annotations_from_session_dict (s : SessionState) (h : Reachable s)
    (docs : List SearchDoc) :
    ∀ res ∈ annotateSearchDocs s.userRatings docs,
      res.seen = (alookup s.userRatings res.movie_id).isSome ∧
      res.user_rating = alookup s.userRatings res.movie_id ∧
      ∀ v, alookup (get_cached_user_ratings s.rs s.now s.userId) res.movie_id = some v →
        res.seen = true := by
  intro res hres
  obtain ⟨doc, _, rfl⟩ := List.mem_map.mp hres
  dsimp only [annotateSearchDocs]
  refine ⟨rfl, ?_, ?_⟩
  · by_cases hs : (alookup s.userRatings (extractMovieId doc.id)).isSome = true
    · simp [hs]
    · simp only [Option.not_isSome_iff_eq_none] at hs
      simp [hs]
  · intro v hv
    have := reachable_inv h _ v hv
    simp [this]

/-- Witness for C6 (amended) at a concrete reachable state: movie 7, rated
3 by user 12 at session start, is annotated as seen with rating 3. -/
theorem search_annotations_from_session_dict_witness :
    ({ movie_id := "7", title := "Seven", genres := "(no genres)", avg_rating := none,
        seen := true, user_rating := some 3 } : AnnotatedResult).seen
      = (alookup (initSession ⟨[12], [(7, "Seven")], [((12, 7), 3)]⟩
          ⟨[], [], [], []⟩ 0 12).userRatings "7").isSome :=
  (search_annotations_from_session_dict
    (initSession ⟨[12], [(7, "Seven")], [((12, 7), 3)]⟩ ⟨[], [], [], []⟩ 0 12)
    (Reachable.init ⟨[12], [(7, "Seven")], [((12, 7), 3)]⟩ ⟨[], [], [], []⟩ 0 12)
    [⟨"movie:7", some "Seven", none, none⟩]
    ⟨"7", "Seven", "(no genres)", none, true, some 3⟩ (by decide)).1

end MovieRec
